import Mathlib

/-!
Verification of the stock-reconciliation core of the warehouse application
(`inventory/views.py`, `inventory/models.py`, `inventory/forms.py`).

The mutable database state relevant to the claims is the `total_units`
column of the `Product` table together with the append-only `StockMovement`
ledger.  Orders and supplies are passed to the view handlers explicitly
(mirroring `get_object_or_404`) and returned updated.  Each view handler is
translated as a pure function from the request's cleaned form data and the
current state to a result tag, the new state and the new entity; an error
path returns the state unchanged, which is exactly what `transaction.atomic`
rollback guarantees in the source (all availability checks precede all
mutations in every handler).
-/

namespace Warehouse

/-- `StockMovement.MovementType` from `inventory/models.py`. -/
inductive MovementType where
  | SUPPLY_IN
  | ORDER_OUT
  | ORDER_RETURN
  | MANUAL_ADJUST
deriving DecidableEq

/-- A row of the `StockMovement` ledger (`inventory/models.py`): product id,
signed quantity change, resulting-balance snapshot, cause tag and the
optional links to the originating order/supply.  The actor, notes and
timestamp columns carry no reconciliation semantics and are omitted. -/
structure StockMovement where
  product : Nat
  quantity_change : Int
  new_total_units : Int
  movement_type : MovementType
  related_order : Option Nat
  related_supply : Option Nat
deriving DecidableEq

/-- The mutable database state the claims are about: the `total_units`
balance of every product (by product id) and the chronological ledger
(oldest first; `StockMovement.objects.create` appends). -/
structure State where
  total_units : Nat → Int
  movements : List StockMovement

/-- `product.total_units = v; product.save()` for one product id. -/
def setBalance (st : State) (p : Nat) (v : Int) : State :=
  { st with total_units := fun q => if q = p then v else st.total_units q }

/-- `create_stock_movement` (`inventory/views.py`, lines 28-39): appends a
ledger row whose `new_total_units` is the product's balance at call time —
at every call site the balance has already been mutated and saved. -/
def create_stock_movement (st : State) (product : Nat) (quantity_change : Int)
    (movement_type : MovementType) (order supply : Option Nat) : State :=
  { st with movements := st.movements ++
      [⟨product, quantity_change, st.total_units product, movement_type, order, supply⟩] }

/-- One step of every stock-mutating loop in the source: a signed balance
change for one product followed by its ledger entry.  In every loop of
`views.py` the ledger row's `quantity_change` equals the signed balance
change just applied. -/
structure Change where
  pid : Nat
  amt : Int
  mt : MovementType
  ro : Option Nat
  rs : Option Nat
deriving DecidableEq

/-- `product.total_units += amt; product.save(); create_stock_movement(...)`. -/
def applyChange (st : State) (c : Change) : State :=
  create_stock_movement (setBalance st c.pid (st.total_units c.pid + c.amt))
    c.pid c.amt c.mt c.ro c.rs

/-- A stock-mutating loop of the source, in loop order. -/
def applyChanges (st : State) (chs : List Change) : State :=
  chs.foldl applyChange st

/-- `Order.OrderStatus` from `inventory/models.py`. -/
inductive OrderStatus where
  | PENDING
  | SHIPPED
  | LOADED
  | CANCELLED
deriving DecidableEq

/-- An `OrderItem` row / one cleaned form of the order-item formset. -/
structure OrderItem where
  product : Nat
  ordered_units : Int
deriving DecidableEq

/-- An `Order` row (`inventory/models.py`), with its line items inlined
(the `items` related set). -/
structure Order where
  id : Nat
  customer : String
  status : OrderStatus
  work_shift : Option Nat
  is_deleted : Bool
  notes : String
  driver : Option Nat
  car : Option Nat
  delivery_date : Int
  items : List OrderItem
deriving DecidableEq

/-- The cleaned data of `OrderForm` (`inventory/forms.py`: fields
customer, delivery_date, notes, driver, car). -/
structure OrderFormData where
  customer : String
  delivery_date : Int
  notes : String
  driver : Option Nat
  car : Option Nat
deriving DecidableEq

/-- `OrderForm.is_valid()`: `customer` is a required CharField and
`delivery_date` a required DateField (always present here); `notes`,
`driver`, `car` are optional. -/
def OrderFormData.is_valid (f : OrderFormData) : Prop := f.customer ≠ ""

instance (f : OrderFormData) : Decidable f.is_valid := by
  unfold OrderFormData.is_valid; infer_instance

/-- `OrderItemFormSet.is_valid()` as far as field validators go:
`ordered_units` carries `MinValueValidator(1)`. -/
def formset_is_valid (lines : List OrderItem) : Prop :=
  ∀ l ∈ lines, 1 ≤ l.ordered_units

instance (lines : List OrderItem) : Decidable (formset_is_valid lines) := by
  unfold formset_is_valid; infer_instance

/-- Outcome tags of the `order_create` view, one per exit path. -/
inductive CreateResult where
  | formInvalid
  | duplicateLineItem
  | noActiveShift
  | insufficientStock
  | success
deriving DecidableEq

/-- The balance/ledger loop of `order_create` (`views.py` lines 514-540):
for every kept line, `product.total_units -= ordered_units` and one
`ORDER_OUT` ledger row of `-ordered_units` linked to the new order. -/
def order_out_changes (oid : Nat) (lines : List OrderItem) : List Change :=
  lines.map fun l => ⟨l.product, -l.ordered_units, .ORDER_OUT, some oid, none⟩

/-- The `Order` row built by `order_create` (`views.py` lines 497-506):
status defaults to PENDING, `work_shift` is the active shift exactly when
the delivery date is today or earlier, the form fields are copied and the
formset becomes the line items. -/
def created_order (oid : Nat) (f : OrderFormData) (lines : List OrderItem)
    (today : Int) (active_shift : Option Nat) : Order :=
  { id := oid
    customer := f.customer
    status := .PENDING
    work_shift := if f.delivery_date ≤ today then active_shift else none
    is_deleted := false
    notes := f.notes
    driver := f.driver
    car := f.car
    delivery_date := f.delivery_date
    items := lines }

/-- `order_create` (`views.py` lines 437-569), POST branch, on the cleaned
form data (`lines` is the formset with DELETE-marked forms dropped).
Checks in source order: form validity, duplicate products, the shift gate
for today-or-earlier deliveries, then — inside `transaction.atomic()` and
before any mutation — per-line availability; only then the balance/ledger
loop runs and the order with its items is persisted.  Every non-success
exit leaves the state unchanged and creates no order. -/
def order_create (st : State) (oid : Nat) (f : OrderFormData)
    (lines : List OrderItem) (today : Int) (active_shift : Option Nat) :
    CreateResult × State × Option Order :=
  if ¬(f.is_valid ∧ formset_is_valid lines) then
    (.formInvalid, st, none)
  else if (lines.map (·.product)).dedup.length ≠ (lines.map (·.product)).length then
    (.duplicateLineItem, st, none)
  else if f.delivery_date ≤ today ∧ active_shift = none then
    (.noActiveShift, st, none)
  else if lines.any (fun l => st.total_units l.product < l.ordered_units) then
    (.insufficientStock, st, none)
  else
    (.success, applyChanges st (order_out_changes oid lines),
      some (created_order oid f lines today active_shift))

/-- Outcome tags of the `order_update` view, one per exit path. -/
inductive UpdateResult where
  | archived
  | shippedLocked
  | driverInfoUpdated
  | formInvalid
  | duplicateLineItem
  | insufficientStock
  | notEditable
  | success
deriving DecidableEq

/-- `new_items.get(p, 0)` / `old_items.get(p, 0)` of `order_update`: the
quantity a line list orders for product `p`, 0 when absent.  (The Python
dicts are keyed by product id; both line lists are duplicate-free when the
lookup happens — the formset by the explicit check, the committed items by
the `unique_together ('order', 'product')` constraint.) -/
def lineQty (lines : List OrderItem) (p : Nat) : Int :=
  ((lines.find? (fun l => l.product = p)).map (·.ordered_units)).getD 0

/-- `delta = new_items.get(p, 0) - old_items.get(p, 0)` (`views.py` 626). -/
def orderDelta (lines old : List OrderItem) (p : Nat) : Int :=
  lineQty lines p - lineQty old p

/-- `all_products_ids = set(new_items) | set(old_items)` (`views.py` 621),
as a duplicate-free list in first-occurrence order. -/
def updateIds (lines old : List OrderItem) : List Nat :=
  (lines.map (·.product) ++ old.map (·.product)).dedup

/-- The balance/ledger loop of `order_update` (`views.py` lines 632-643):
for every product with nonzero delta, `total_units -= delta` and one ledger
row of `-delta`, cause ORDER_OUT for positive delta and ORDER_RETURN for
negative delta. -/
def delta_changes (oid : Nat) (d : Nat → Int) : List Nat → List Change
  | [] => []
  | q :: qs =>
      if d q ≠ 0 then
        ⟨q, -(d q), if 0 < d q then .ORDER_OUT else .ORDER_RETURN, some oid, none⟩ ::
          delta_changes oid d qs
      else delta_changes oid d qs

def update_changes (oid : Nat) (lines old : List OrderItem) : List Change :=
  delta_changes oid (orderDelta lines old) (updateIds lines old)

/-- `order_update` (`views.py` lines 574-679), POST branch.  Archived
orders are refused; SHIPPED orders are refused; LOADED orders save the
whole `OrderForm` (customer, delivery_date, notes, driver, car) and leave
the line items and all balances alone; PENDING orders run the duplicate
check, then — inside `transaction.atomic()`, before any mutation — the
per-product availability check on the positive deltas, then the
balance/ledger loop, `order_form.save()` and `formset.save()`.  A
CANCELLED order matches no branch and falls through to the re-render.
Every non-success, non-driverInfoUpdated exit changes nothing. -/
def order_update (st : State) (order : Order) (f : OrderFormData)
    (lines : List OrderItem) : UpdateResult × State × Order :=
  if order.is_deleted then
    (.archived, st, order)
  else if order.status = .SHIPPED then
    (.shippedLocked, st, order)
  else if order.status = .LOADED then
    if f.is_valid then
      (.driverInfoUpdated, st,
        { order with
            customer := f.customer
            delivery_date := f.delivery_date
            notes := f.notes
            driver := f.driver
            car := f.car })
    else
      (.formInvalid, st, order)
  else if order.status = .PENDING then
    if ¬(f.is_valid ∧ formset_is_valid lines) then
      (.formInvalid, st, order)
    else if (lines.map (·.product)).dedup.length ≠ (lines.map (·.product)).length then
      (.duplicateLineItem, st, order)
    else if (updateIds lines order.items).any (fun p =>
        0 < orderDelta lines order.items p ∧
        st.total_units p < orderDelta lines order.items p) then
      (.insufficientStock, st, order)
    else
      (.success, applyChanges st (update_changes order.id lines order.items),
        { order with
            customer := f.customer
            delivery_date := f.delivery_date
            notes := f.notes
            driver := f.driver
            car := f.car
            items := lines })
  else
    (.notEditable, st, order)

/-- Outcome tags of the `cancel_order` view. -/
inductive CancelResult where
  | notPending
  | success
deriving DecidableEq

/-- The stock-return loop of `cancel_order` (`views.py` lines 735-744):
for every line, `total_units += ordered_units` and one ORDER_RETURN ledger
row of `+ordered_units`. -/
def return_changes (oid : Nat) (items : List OrderItem) : List Change :=
  items.map fun l => ⟨l.product, l.ordered_units, .ORDER_RETURN, some oid, none⟩

/-- `cancel_order` (`views.py` lines 719-753): only a PENDING order may be
cancelled (anything else is refused with a warning and nothing changes);
cancellation returns every line's quantity to stock, journals each return
and sets the status to CANCELLED, all in one transaction. -/
def cancel_order (st : State) (order : Order) : CancelResult × State × Order :=
  if order.status ≠ .PENDING then
    (.notPending, st, order)
  else
    (.success, applyChanges st (return_changes order.id order.items),
      { order with status := .CANCELLED })

/-- Outcome tags of the `soft_delete_order` view. -/
inductive ArchiveResult where
  | alreadyArchived
  | success
deriving DecidableEq

/-- `soft_delete_order` (`views.py` lines 682-716): an already-archived
order is refused with a warning and nothing changes; otherwise the stock
of a PENDING order is returned (same loop as cancellation) while any other
status returns nothing, and only the `is_deleted` flag is set — the status
field is never touched. -/
def soft_delete_order (st : State) (order : Order) : ArchiveResult × State × Order :=
  if order.is_deleted then
    (.alreadyArchived, st, order)
  else
    (.success,
      (if order.status = .PENDING then
        applyChanges st (return_changes order.id order.items)
      else st),
      { order with is_deleted := true })

/-- Outcome tags of the `ship_with_driver_info` view. -/
inductive ShipResult where
  | notLoaded
  | validationError
  | success
deriving DecidableEq

/-- `DriverInfoForm.is_valid()` (`inventory/forms.py` lines 80-96): the
driver field is required, the car field is not. -/
def driver_form_is_valid (driver _car : Option Nat) : Prop := driver ≠ none

instance (driver car : Option Nat) : Decidable (driver_form_is_valid driver car) := by
  unfold driver_form_is_valid; infer_instance

/-- `ship_with_driver_info` (`views.py` lines 809-835): refused unless the
order is LOADED; with an invalid `DriverInfoForm` (no driver) the order is
untouched; otherwise the driver and car are saved and the status becomes
SHIPPED.  No balance or ledger row is touched on any path. -/
def ship_with_driver_info (st : State) (order : Order)
    (driver car : Option Nat) : ShipResult × State × Order :=
  if order.status ≠ .LOADED then
    (.notLoaded, st, order)
  else if driver_form_is_valid driver car then
    (.success, st, { order with driver := driver, car := car, status := .SHIPPED })
  else
    (.validationError, st, order)

/-- `Supply.SupplyStatus` from `inventory/models.py`. -/
inductive SupplyStatus where
  | PENDING
  | COMPLETED
deriving DecidableEq

/-- A `SupplyItem` row. -/
structure SupplyItem where
  product : Nat
  quantity : Int
deriving DecidableEq

/-- A `Supply` row with its line items inlined. -/
structure Supply where
  id : Nat
  status : SupplyStatus
  items : List SupplyItem
deriving DecidableEq

/-- Outcome tags of the `process_supply` view. -/
inductive ProcessResult where
  | alreadyProcessed
  | success
deriving DecidableEq

/-- The receipt loop of `process_supply` (`views.py` lines 905-913): for
every line, `total_units += quantity` and one SUPPLY_IN ledger row linked
to the supply. -/
def supply_in_changes (sid : Nat) (items : List SupplyItem) : List Change :=
  items.map fun l => ⟨l.product, l.quantity, .SUPPLY_IN, none, some sid⟩

/-- `process_supply` (`views.py` lines 894-921): a COMPLETED supply is
refused with a warning and nothing changes; otherwise every line's
quantity is credited and journalled and the supply becomes COMPLETED, all
in one transaction. -/
def process_supply (st : State) (supply : Supply) : ProcessResult × State × Supply :=
  if supply.status = .COMPLETED then
    (.alreadyProcessed, st, supply)
  else
    (.success, applyChanges st (supply_in_changes supply.id supply.items),
      { supply with status := .COMPLETED })

/-- One stock operation on a single product, each executed through the
corresponding view handler: `reserve q` creates (and immediately reserves)
a one-line order of `q` units, `ret q` cancels a pending one-line order of
`q` units, `receive q` processes a pending one-line supply of `q` units. -/
inductive StockOp where
  | reserve (q : Int)
  | ret (q : Int)
  | receive (q : Int)
deriving DecidableEq

/-- Run one operation through the actual view handler; `none` when the
handler refuses (the reservation's stock check or form validators fail). -/
def runOp (pid : Nat) (today : Int) (st : State) : StockOp → Option State
  | .reserve q =>
      match order_create st 0 ⟨"c", today, "", none, none⟩ [⟨pid, q⟩] today (some 0) with
      | (.success, st', _) => some st'
      | _ => none
  | .ret q =>
      match cancel_order st ⟨0, "c", .PENDING, none, false, "", none, none, today, [⟨pid, q⟩]⟩ with
      | (.success, st', _) => some st'
      | _ => none
  | .receive q =>
      match process_supply st ⟨0, .PENDING, [⟨pid, q⟩]⟩ with
      | (.success, st', _) => some st'
      | _ => none

/-- Run a sequence of operations, failing as soon as one is refused. -/
def runOps (pid : Nat) (today : Int) (st : State) : List StockOp → Option State
  | [] => some st
  | op :: ops => (runOp pid today st op).bind fun st' => runOps pid today st' ops

/-- Total quantity reserved by a sequence of operations. -/
def sumReserved : List StockOp → Int
  | [] => 0
  | .reserve q :: ops => q + sumReserved ops
  | .ret _ :: ops => sumReserved ops
  | .receive _ :: ops => sumReserved ops

/-- Total quantity returned or received by a sequence of operations. -/
def sumReturned : List StockOp → Int
  | [] => 0
  | .reserve _ :: ops => sumReturned ops
  | .ret q :: ops => q + sumReturned ops
  | .receive q :: ops => q + sumReturned ops

/-- A ledger segment is consistent from balance `b` when each entry's
`new_total_units` snapshot equals the running balance immediately after
its own change. -/
def ledgerConsistentFrom (b : Int) : List StockMovement → Prop
  | [] => True
  | m :: ms => m.new_total_units = b + m.quantity_change ∧
      ledgerConsistentFrom m.new_total_units ms

/-- The ledger rows a change list appends when started from balances `b`
(each snapshot is the running balance after its own change). -/
def movementsOf (b : Nat → Int) : List Change → List StockMovement
  | [] => []
  | c :: cs =>
      ⟨c.pid, c.amt, b c.pid + c.amt, c.mt, c.ro, c.rs⟩ ::
        movementsOf (fun p => if p = c.pid then b c.pid + c.amt else b p) cs

/-- Net signed amount a change list applies to product `p`. -/
def amtFor (p : Nat) : List Change → Int
  | [] => 0
  | c :: cs => (if c.pid = p then c.amt else 0) + amtFor p cs

theorem applyChanges_total_units (chs : List Change) :
    ∀ st p, (applyChanges st chs).total_units p = st.total_units p + amtFor p chs := by
  induction chs with
  | nil => intro st p; simp [applyChanges, amtFor]
  | cons c cs ih =>
      intro st p
      simp only [applyChanges, List.foldl_cons] at *
      rw [ih]
      simp only [applyChange, create_stock_movement, setBalance, amtFor]
      by_cases h : c.pid = p
      · subst h; simp; ring
      · have h' : p ≠ c.pid := fun hp => h hp.symm
        simp [h, h']

theorem applyChanges_movements (chs : List Change) :
    ∀ st, (applyChanges st chs).movements =
      st.movements ++ movementsOf st.total_units chs := by
  induction chs with
  | nil => intro st; simp [applyChanges, movementsOf]
  | cons c cs ih =>
      intro st
      simp only [applyChanges, List.foldl_cons] at *
      rw [ih]
      simp [applyChange, create_stock_movement, setBalance, movementsOf,
        List.append_assoc]

theorem movementsOf_forall₂ (chs : List Change) :
    ∀ b, List.Forall₂ (fun (c : Change) (m : StockMovement) =>
      m.product = c.pid ∧ m.quantity_change = c.amt ∧ m.movement_type = c.mt ∧
      m.related_order = c.ro ∧ m.related_supply = c.rs) chs (movementsOf b chs) := by
  induction chs with
  | nil => intro b; exact List.Forall₂.nil
  | cons c cs ih =>
      intro b
      exact List.Forall₂.cons (by simp) (ih _)

/-- C4: processing a pending supply credits every line's quantity, writes
one SUPPLY_IN ledger row per line, marks the supply completed, and a second
processing of the returned supply reports AlreadyProcessed and is the
identity on state and supply — so each balance changes exactly once. -/
theorem C4_process_supply_idempotent (st : State) (s : Supply)
    (hp : s.status = .PENDING) :
    (process_supply st s).1 = .success
    ∧ (∀ p, (process_supply st s).2.1.total_units p =
        st.total_units p + amtFor p (supply_in_changes s.id s.items))
    ∧ (process_supply st s).2.2.status = .COMPLETED
    ∧ List.Forall₂ (fun (it : SupplyItem) (m : StockMovement) =>
        m.product = it.product ∧ m.quantity_change = it.quantity ∧
        m.movement_type = .SUPPLY_IN ∧ m.related_supply = some s.id)
        s.items ((process_supply st s).2.1.movements.drop st.movements.length)
    ∧ process_supply (process_supply st s).2.1 (process_supply st s).2.2 =
        (.alreadyProcessed, (process_supply st s).2.1, (process_supply st s).2.2) := by
  have hps : process_supply st s =
      (.success, applyChanges st (supply_in_changes s.id s.items),
        { s with status := .COMPLETED }) := by
    unfold process_supply
    rw [if_neg (by simp [hp])]
  refine ⟨by rw [hps], ?_, by rw [hps], ?_, ?_⟩
  · intro p
    rw [hps]
    exact applyChanges_total_units _ _ _
  · rw [hps]
    simp only [applyChanges_movements, List.drop_left]
    have h2 := movementsOf_forall₂ (supply_in_changes s.id s.items) st.total_units
    rw [supply_in_changes, List.forall₂_map_left_iff] at h2
    refine h2.imp ?_
    intro a b hab
    simp only at hab
    exact ⟨hab.1, hab.2.1, hab.2.2.1, hab.2.2.2.2⟩
  · rw [hps]
    unfold process_supply
    rw [if_pos rfl]

/-- Witness for C4 at the spec's own scenario: balance 70, supply of 50. -/
theorem C4_process_supply_idempotent_witness :
    (process_supply ⟨fun _ => 70, []⟩ ⟨3, .PENDING, [⟨1, 50⟩]⟩).1 = .success
    ∧ (process_supply ⟨fun _ => 70, []⟩ ⟨3, .PENDING, [⟨1, 50⟩]⟩).2.1.total_units 1 = 120
    ∧ process_supply (process_supply ⟨fun _ => 70, []⟩ ⟨3, .PENDING, [⟨1, 50⟩]⟩).2.1
        (process_supply ⟨fun _ => 70, []⟩ ⟨3, .PENDING, [⟨1, 50⟩]⟩).2.2 =
        (.alreadyProcessed,
          (process_supply ⟨fun _ => 70, []⟩ ⟨3, .PENDING, [⟨1, 50⟩]⟩).2.1,
          (process_supply ⟨fun _ => 70, []⟩ ⟨3, .PENDING, [⟨1, 50⟩]⟩).2.2) := by
  have h := C4_process_supply_idempotent ⟨fun _ => 70, []⟩ ⟨3, .PENDING, [⟨1, 50⟩]⟩ rfl
  exact ⟨h.1, (h.2.1 1).trans (by decide), h.2.2.2.2⟩

/-- C8: shipping is refused unless the order is LOADED (order and state
unchanged); a LOADED order without a driver fails validation (order stays
LOADED, state unchanged); a LOADED order with a driver becomes SHIPPED with
its driver and car saved; the state — balances and ledger — is untouched on
every path. -/
theorem C8_ship_requires_loaded_and_driver (st st' st'' : State) (o1 o2 : Order)
    (d : Nat) (dr c c1 c2 : Option Nat)
    (h1 : o1.status ≠ .LOADED) (h2 : o2.status = .LOADED) :
    ship_with_driver_info st o1 dr c = (.notLoaded, st, o1)
    ∧ ship_with_driver_info st' o2 none c1 = (.validationError, st', o2)
    ∧ ship_with_driver_info st'' o2 (some d) c2 =
        (.success, st'', { o2 with driver := some d, car := c2, status := .SHIPPED }) := by
  refine ⟨?_, ?_, ?_⟩
  · unfold ship_with_driver_info
    rw [if_pos h1]
  · unfold ship_with_driver_info
    rw [if_neg (by simp [h2]), if_neg (by simp [driver_form_is_valid])]
  · unfold ship_with_driver_info
    rw [if_neg (by simp [h2]), if_pos (by simp [driver_form_is_valid])]

/-- Witness for C8 on a concrete pending and a concrete loaded order. -/
theorem C8_ship_requires_loaded_and_driver_witness :
    ship_with_driver_info ⟨fun _ => 100, []⟩
        ⟨1, "a", .PENDING, none, false, "", none, none, 0, []⟩ (some 2) none =
      (.notLoaded, ⟨fun _ => 100, []⟩,
        ⟨1, "a", .PENDING, none, false, "", none, none, 0, []⟩)
    ∧ ship_with_driver_info ⟨fun _ => 100, []⟩
        ⟨2, "b", .LOADED, none, false, "", none, none, 0, []⟩ none none =
      (.validationError, ⟨fun _ => 100, []⟩,
        ⟨2, "b", .LOADED, none, false, "", none, none, 0, []⟩)
    ∧ ship_with_driver_info ⟨fun _ => 100, []⟩
        ⟨2, "b", .LOADED, none, false, "", none, none, 0, []⟩ (some 7) (some 8) =
      (.success, ⟨fun _ => 100, []⟩,
        { (⟨2, "b", .LOADED, none, false, "", none, none, 0, []⟩ : Order) with
            driver := some 7, car := some 8, status := .SHIPPED }) :=
  C8_ship_requires_loaded_and_driver ⟨fun _ => 100, []⟩ ⟨fun _ => 100, []⟩
    ⟨fun _ => 100, []⟩ ⟨1, "a", .PENDING, none, false, "", none, none, 0, []⟩
    ⟨2, "b", .LOADED, none, false, "", none, none, 0, []⟩ 7 (some 2) none none (some 8)
    (by decide) rfl

/-- C10: archiving a not-yet-archived order succeeds, sets only the
`is_deleted` flag (the status field is untouched), returns stock exactly
when the order was PENDING; archiving the result again — and archiving any
already-archived order — is refused and changes nothing, so the archival
stock return happens at most once. -/
theorem C10_archive_at_most_once (st st2 : State) (o o2 : Order)
    (h : o.is_deleted = false) (h2 : o2.is_deleted = true) :
    soft_delete_order st o =
      (.success,
        (if o.status = .PENDING then
          applyChanges st (return_changes o.id o.items) else st),
        { o with is_deleted := true })
    ∧ ({ o with is_deleted := true } : Order).status = o.status
    ∧ soft_delete_order (soft_delete_order st o).2.1 (soft_delete_order st o).2.2 =
        (.alreadyArchived, (soft_delete_order st o).2.1, (soft_delete_order st o).2.2)
    ∧ soft_delete_order st2 o2 = (.alreadyArchived, st2, o2) := by
  have hs : soft_delete_order st o =
      (.success,
        (if o.status = .PENDING then
          applyChanges st (return_changes o.id o.items) else st),
        { o with is_deleted := true }) := by
    unfold soft_delete_order
    rw [if_neg (by simp [h])]
  refine ⟨hs, rfl, ?_, ?_⟩
  · rw [hs]
    unfold soft_delete_order
    rw [if_pos rfl]
  · unfold soft_delete_order
    rw [if_pos h2]

/-- Witness for C10 on a concrete pending order. -/
theorem C10_archive_at_most_once_witness :
    soft_delete_order ⟨fun _ => 100, []⟩
        ⟨5, "a", .PENDING, none, false, "", none, none, 0, [⟨1, 30⟩]⟩ =
      (.success,
        (if (⟨5, "a", .PENDING, none, false, "", none, none, 0, [⟨1, 30⟩]⟩ : Order).status
            = .PENDING then
          applyChanges ⟨fun _ => 100, []⟩ (return_changes 5 [⟨1, 30⟩])
        else ⟨fun _ => 100, []⟩),
        { (⟨5, "a", .PENDING, none, false, "", none, none, 0, [⟨1, 30⟩]⟩ : Order) with
            is_deleted := true })
    ∧ ({ (⟨5, "a", .PENDING, none, false, "", none, none, 0, [⟨1, 30⟩]⟩ : Order) with
          is_deleted := true } : Order).status =
        (⟨5, "a", .PENDING, none, false, "", none, none, 0, [⟨1, 30⟩]⟩ : Order).status
    ∧ soft_delete_order
        (soft_delete_order ⟨fun _ => 100, []⟩
          ⟨5, "a", .PENDING, none, false, "", none, none, 0, [⟨1, 30⟩]⟩).2.1
        (soft_delete_order ⟨fun _ => 100, []⟩
          ⟨5, "a", .PENDING, none, false, "", none, none, 0, [⟨1, 30⟩]⟩).2.2 =
        (.alreadyArchived,
          (soft_delete_order ⟨fun _ => 100, []⟩
            ⟨5, "a", .PENDING, none, false, "", none, none, 0, [⟨1, 30⟩]⟩).2.1,
          (soft_delete_order ⟨fun _ => 100, []⟩
            ⟨5, "a", .PENDING, none, false, "", none, none, 0, [⟨1, 30⟩]⟩).2.2)
    ∧ soft_delete_order ⟨fun _ => 50, []⟩
        ⟨6, "b", .SHIPPED, none, true, "", none, none, 0, []⟩ =
        (.alreadyArchived, ⟨fun _ => 50, []⟩,
          ⟨6, "b", .SHIPPED, none, true, "", none, none, 0, []⟩) :=
  C10_archive_at_most_once ⟨fun _ => 100, []⟩ ⟨fun _ => 50, []⟩
    ⟨5, "a", .PENDING, none, false, "", none, none, 0, [⟨1, 30⟩]⟩
    ⟨6, "b", .SHIPPED, none, true, "", none, none, 0, []⟩ rfl rfl

/-- C1: when some submitted line needs a positive delta larger than the
product's balance, order creation and pending-order editing both stop with
InsufficientStock at the pre-mutation availability check: the returned
state is the input state (no balance change, no ledger row), no order is
created and the edited order is untouched. -/
theorem C1_insufficient_stock_rolls_back (st stU : State) (oid : Nat)
    (f fU : OrderFormData) (lines linesU : List OrderItem) (today : Int)
    (shift : Option Nat) (ord : Order)
    (hv : f.is_valid) (hfs : formset_is_valid lines)
    (hdup : (lines.map (·.product)).dedup.length = (lines.map (·.product)).length)
    (hshift : ¬(f.delivery_date ≤ today ∧ shift = none))
    (hlow : ∃ l ∈ lines, st.total_units l.product < l.ordered_units)
    (hdel : ord.is_deleted = false) (hstat : ord.status = .PENDING)
    (hvU : fU.is_valid) (hfsU : formset_is_valid linesU)
    (hdupU : (linesU.map (·.product)).dedup.length = (linesU.map (·.product)).length)
    (hlowU : ∃ p ∈ updateIds linesU ord.items,
      0 < orderDelta linesU ord.items p ∧
      stU.total_units p < orderDelta linesU ord.items p) :
    order_create st oid f lines today shift = (.insufficientStock, st, none)
    ∧ order_update stU ord fU linesU = (.insufficientStock, stU, ord) := by
  have hany : (lines.any fun l =>
      decide (st.total_units l.product < l.ordered_units)) = true := by
    rw [List.any_eq_true]
    obtain ⟨l, hl, hlt⟩ := hlow
    exact ⟨l, hl, by simpa using hlt⟩
  have hanyU : ((updateIds linesU ord.items).any fun p =>
      decide (0 < orderDelta linesU ord.items p ∧
        stU.total_units p < orderDelta linesU ord.items p)) = true := by
    rw [List.any_eq_true]
    obtain ⟨p, hp, h1, h2⟩ := hlowU
    exact ⟨p, hp, by simp [h1, h2]⟩
  constructor
  · unfold order_create
    rw [if_neg (by simp [hv, hfs]), if_neg (by simp [hdup]), if_neg hshift,
      if_pos hany]
  · unfold order_update
    rw [if_neg (by simp [hdel]), if_neg (by simp [hstat]),
      if_neg (by simp [hstat]), if_pos hstat,
      if_neg (by simp [hvU, hfsU]), if_neg (by simp [hdupU]),
      if_pos hanyU]

/-- Witness for C1: balance 100, creation asking 130 of product 1; a
pending order of 10 edited up to 200. -/
theorem C1_insufficient_stock_rolls_back_witness :
    order_create ⟨fun _ => 100, []⟩ 7 ⟨"cust", 0, "", none, none⟩ [⟨1, 130⟩] 0 (some 5) =
      (.insufficientStock, ⟨fun _ => 100, []⟩, none)
    ∧ order_update ⟨fun _ => 100, []⟩
        ⟨9, "c", .PENDING, none, false, "", none, none, 0, [⟨1, 10⟩]⟩
        ⟨"c", 0, "", none, none⟩ [⟨1, 200⟩] =
      (.insufficientStock, ⟨fun _ => 100, []⟩,
        ⟨9, "c", .PENDING, none, false, "", none, none, 0, [⟨1, 10⟩]⟩) :=
  C1_insufficient_stock_rolls_back ⟨fun _ => 100, []⟩ ⟨fun _ => 100, []⟩ 7
    ⟨"cust", 0, "", none, none⟩ ⟨"c", 0, "", none, none⟩ [⟨1, 130⟩] [⟨1, 200⟩] 0
    (some 5) ⟨9, "c", .PENDING, none, false, "", none, none, 0, [⟨1, 10⟩]⟩
    (by decide) (by decide) (by decide) (by decide) (by decide) rfl rfl
    (by decide) (by decide) (by decide) (by decide)

/-- C9: an order whose delivery date is today or earlier is refused with
NoActiveShift when no shift is active — state unchanged, no order created;
with an active shift (and passing checks) creation succeeds and the created
order's `work_shift` is that shift. -/
theorem C9_shift_gate (st : State) (oid : Nat) (f : OrderFormData)
    (lines : List OrderItem) (today : Int) (s : Nat)
    (hv : f.is_valid) (hfs : formset_is_valid lines)
    (hdup : (lines.map (·.product)).dedup.length = (lines.map (·.product)).length)
    (himm : f.delivery_date ≤ today)
    (hstock : ∀ l ∈ lines, l.ordered_units ≤ st.total_units l.product) :
    order_create st oid f lines today none = (.noActiveShift, st, none)
    ∧ order_create st oid f lines today (some s) =
        (.success, applyChanges st (order_out_changes oid lines),
          some (created_order oid f lines today (some s)))
    ∧ (created_order oid f lines today (some s)).work_shift = some s := by
  refine ⟨?_, ?_, ?_⟩
  · unfold order_create
    rw [if_neg (by simp [hv, hfs]), if_neg (by simp [hdup]),
      if_pos ⟨himm, rfl⟩]
  · unfold order_create
    rw [if_neg (by simp [hv, hfs]), if_neg (by simp [hdup]),
      if_neg (by simp), if_neg (by
        rw [Bool.not_eq_true, List.any_eq_false]
        intro l hl
        simpa using not_lt.mpr (hstock l hl))]
  · unfold created_order
    simp [himm]

/-- Witness for C9: delivery today, product 1 in stock. -/
theorem C9_shift_gate_witness :
    order_create ⟨fun _ => 100, []⟩ 7 ⟨"cust", 0, "", none, none⟩ [⟨1, 30⟩] 0 none =
      (.noActiveShift, ⟨fun _ => 100, []⟩, none)
    ∧ order_create ⟨fun _ => 100, []⟩ 7 ⟨"cust", 0, "", none, none⟩ [⟨1, 30⟩] 0 (some 5) =
        (.success, applyChanges ⟨fun _ => 100, []⟩ (order_out_changes 7 [⟨1, 30⟩]),
          some (created_order 7 ⟨"cust", 0, "", none, none⟩ [⟨1, 30⟩] 0 (some 5)))
    ∧ (created_order 7 ⟨"cust", 0, "", none, none⟩ [⟨1, 30⟩] 0 (some 5)).work_shift = some 5 :=
  C9_shift_gate ⟨fun _ => 100, []⟩ 7 ⟨"cust", 0, "", none, none⟩ [⟨1, 30⟩] 0 5
    (by decide) (by decide) (by decide) (by decide) (by decide)

/-- Counterexample to C6 as stated: an edit of a LOADED order whose
submitted formset contains product 1 twice is not rejected — the view takes
the driver-info branch and reports success, never DuplicateLineItem.  (The
duplicate check of `order_update` runs only in the PENDING branch.) -/
theorem C6_counterexample_loaded_edit :
    (order_update ⟨fun _ => 100, []⟩
        ⟨4, "A", .LOADED, none, false, "", none, none, 0, [⟨1, 5⟩]⟩
        ⟨"A", 0, "", some 2, none⟩ [⟨1, 5⟩, ⟨1, 7⟩]).1 = .driverInfoUpdated
    ∧ (order_update ⟨fun _ => 100, []⟩
        ⟨4, "A", .LOADED, none, false, "", none, none, 0, [⟨1, 5⟩]⟩
        ⟨"A", 0, "", some 2, none⟩ [⟨1, 5⟩, ⟨1, 7⟩]).1 ≠ .duplicateLineItem := by
  constructor
  · rfl
  · decide

/-- C6 as amended: order creation and pending-order edits reject a line set
containing the same product twice with DuplicateLineItem before any balance
mutation or ledger write (state unchanged, no order created / order
untouched); an edit of a LOADED order ignores the submitted line set
entirely — it is not rejected, but it changes no balance, no ledger row and
no line item either. -/
theorem C6_amended_duplicates_rejected (st stU stL : State) (oid : Nat)
    (f fU fL : OrderFormData) (lines linesU linesL : List OrderItem)
    (today : Int) (shift : Option Nat) (ordU ordL : Order)
    (hv : f.is_valid) (hfs : formset_is_valid lines)
    (hdup : (lines.map (·.product)).dedup.length ≠ (lines.map (·.product)).length)
    (hdelU : ordU.is_deleted = false) (hstatU : ordU.status = .PENDING)
    (hvU : fU.is_valid) (hfsU : formset_is_valid linesU)
    (hdupU : (linesU.map (·.product)).dedup.length ≠ (linesU.map (·.product)).length)
    (hdelL : ordL.is_deleted = false) (hstatL : ordL.status = .LOADED) :
    order_create st oid f lines today shift = (.duplicateLineItem, st, none)
    ∧ order_update stU ordU fU linesU = (.duplicateLineItem, stU, ordU)
    ∧ (order_update stL ordL fL linesL).2.1 = stL
    ∧ ((order_update stL ordL fL linesL).2.2).items = ordL.items := by
  have hL : order_update stL ordL fL linesL =
      if fL.is_valid then
        (.driverInfoUpdated, stL,
          { ordL with
              customer := fL.customer
              delivery_date := fL.delivery_date
              notes := fL.notes
              driver := fL.driver
              car := fL.car })
      else (.formInvalid, stL, ordL) := by
    unfold order_update
    rw [if_neg (by simp [hdelL]), if_neg (by simp [hstatL]), if_pos hstatL]
  refine ⟨?_, ?_, ?_, ?_⟩
  · unfold order_create
    rw [if_neg (by simp [hv, hfs]), if_pos hdup]
  · unfold order_update
    rw [if_neg (by simp [hdelU]), if_neg (by simp [hstatU]),
      if_neg (by simp [hstatU]), if_pos hstatU,
      if_neg (by simp [hvU, hfsU]), if_pos hdupU]
  · rw [hL]
    by_cases hfv : fL.is_valid
    · rw [if_pos hfv]
    · rw [if_neg hfv]
  · rw [hL]
    by_cases hfv : fL.is_valid
    · rw [if_pos hfv]
    · rw [if_neg hfv]

/-- Witness for the amended C6 on concrete duplicate submissions. -/
theorem C6_amended_duplicates_rejected_witness :
    order_create ⟨fun _ => 100, []⟩ 7 ⟨"cust", 0, "", none, none⟩
        [⟨1, 5⟩, ⟨1, 7⟩] 0 (some 5) =
      (.duplicateLineItem, ⟨fun _ => 100, []⟩, none)
    ∧ order_update ⟨fun _ => 100, []⟩
        ⟨9, "c", .PENDING, none, false, "", none, none, 0, [⟨1, 10⟩]⟩
        ⟨"c", 0, "", none, none⟩ [⟨1, 5⟩, ⟨1, 7⟩] =
      (.duplicateLineItem, ⟨fun _ => 100, []⟩,
        ⟨9, "c", .PENDING, none, false, "", none, none, 0, [⟨1, 10⟩]⟩)
    ∧ (order_update ⟨fun _ => 100, []⟩
        ⟨4, "A", .LOADED, none, false, "", none, none, 0, [⟨1, 5⟩]⟩
        ⟨"A", 0, "", some 2, none⟩ [⟨1, 5⟩, ⟨1, 7⟩]).2.1 = ⟨fun _ => 100, []⟩
    ∧ ((order_update ⟨fun _ => 100, []⟩
        ⟨4, "A", .LOADED, none, false, "", none, none, 0, [⟨1, 5⟩]⟩
        ⟨"A", 0, "", some 2, none⟩ [⟨1, 5⟩, ⟨1, 7⟩]).2.2).items =
      (⟨4, "A", .LOADED, none, false, "", none, none, 0, [⟨1, 5⟩]⟩ : Order).items :=
  C6_amended_duplicates_rejected ⟨fun _ => 100, []⟩ ⟨fun _ => 100, []⟩
    ⟨fun _ => 100, []⟩ 7 ⟨"cust", 0, "", none, none⟩ ⟨"c", 0, "", none, none⟩
    ⟨"A", 0, "", some 2, none⟩ [⟨1, 5⟩, ⟨1, 7⟩] [⟨1, 5⟩, ⟨1, 7⟩] [⟨1, 5⟩, ⟨1, 7⟩]
    0 (some 5) ⟨9, "c", .PENDING, none, false, "", none, none, 0, [⟨1, 10⟩]⟩
    ⟨4, "A", .LOADED, none, false, "", none, none, 0, [⟨1, 5⟩]⟩
    (by decide) (by decide) (by decide) rfl rfl (by decide) (by decide)
    (by decide) rfl rfl

/-- C7 fails on the code: the POST branch of `order_update` for a LOADED
order saves the whole `OrderForm` — a submission carrying a different
customer, delivery date and notes overwrites them all, while the view's own
GET branch disables exactly those fields and its success message says only
the driver info was updated.  Evaluation at the failing input: order #4 of
customer "A" (delivery day 10, notes "old") edited with customer "B",
delivery day 99, notes "new", driver 2. -/
theorem C7_loaded_edit_overwrites_other_fields :
    (order_update ⟨fun _ => 100, []⟩
        ⟨4, "A", .LOADED, none, false, "old", none, none, 10, [⟨1, 5⟩]⟩
        ⟨"B", 99, "new", some 2, some 3⟩ [⟨1, 5⟩]).1 = .driverInfoUpdated
    ∧ ((order_update ⟨fun _ => 100, []⟩
        ⟨4, "A", .LOADED, none, false, "old", none, none, 10, [⟨1, 5⟩]⟩
        ⟨"B", 99, "new", some 2, some 3⟩ [⟨1, 5⟩]).2.2).customer = "B"
    ∧ ((order_update ⟨fun _ => 100, []⟩
        ⟨4, "A", .LOADED, none, false, "old", none, none, 10, [⟨1, 5⟩]⟩
        ⟨"B", 99, "new", some 2, some 3⟩ [⟨1, 5⟩]).2.2).delivery_date = 99
    ∧ ((order_update ⟨fun _ => 100, []⟩
        ⟨4, "A", .LOADED, none, false, "old", none, none, 10, [⟨1, 5⟩]⟩
        ⟨"B", 99, "new", some 2, some 3⟩ [⟨1, 5⟩]).2.2).notes = "new" := by
  refine ⟨rfl, rfl, rfl, rfl⟩

theorem amtFor_return_neg_order_out (p : Nat) (oid1 oid2 : Nat) :
    ∀ items : List OrderItem,
      amtFor p (return_changes oid1 items) = - amtFor p (order_out_changes oid2 items) := by
  intro items
  induction items with
  | nil => simp [return_changes, order_out_changes, amtFor]
  | cons l ls ih =>
      simp only [return_changes, order_out_changes, List.map_cons, amtFor] at *
      rw [ih]
      by_cases h : l.product = p
      · simp [h]
        ring
      · simp [h]

/-- C5: after a successful order creation, cancelling the created order
succeeds, sets its status to CANCELLED, writes one ORDER_RETURN ledger row
per line returning exactly the reserved quantity, and restores every
product balance to its value before the creation; cancelling any
non-pending order is refused and changes nothing. -/
theorem C5_cancel_restores_balances (st st1 st3 : State) (oid : Nat)
    (f : OrderFormData) (lines : List OrderItem) (today : Int)
    (shift : Option Nat) (o o3 : Order)
    (hc : order_create st oid f lines today shift = (.success, st1, some o))
    (h3 : o3.status ≠ .PENDING) :
    (cancel_order st1 o).1 = .success
    ∧ ((cancel_order st1 o).2.2).status = .CANCELLED
    ∧ (∀ p, ((cancel_order st1 o).2.1).total_units p = st.total_units p)
    ∧ List.Forall₂ (fun (l : OrderItem) (m : StockMovement) =>
        m.product = l.product ∧ m.quantity_change = l.ordered_units ∧
        m.movement_type = .ORDER_RETURN ∧ m.related_order = some o.id)
        o.items (((cancel_order st1 o).2.1).movements.drop st1.movements.length)
    ∧ cancel_order st3 o3 = (.notPending, st3, o3) := by
  unfold order_create at hc
  split_ifs at hc with h1 h2 hsh hstock
  all_goals simp only [Prod.mk.injEq, Option.some.injEq, reduceCtorEq,
    false_and, and_false] at hc
  obtain ⟨-, hst1, ho⟩ := hc
  have hostat : o.status = .PENDING := by rw [← ho]; rfl
  have hoitems : o.items = lines := by rw [← ho]; rfl
  have hcan : cancel_order st1 o =
      (.success, applyChanges st1 (return_changes o.id o.items),
        { o with status := .CANCELLED }) := by
    unfold cancel_order
    rw [if_neg (by simp [hostat])]
  refine ⟨by rw [hcan], by rw [hcan], ?_, ?_, ?_⟩
  · intro p
    rw [hcan]
    simp only [applyChanges_total_units]
    rw [← hst1]
    simp only [applyChanges_total_units]
    rw [hoitems, amtFor_return_neg_order_out p o.id oid lines]
    ring
  · rw [hcan]
    simp only [applyChanges_movements, List.drop_left]
    have h2 := movementsOf_forall₂ (return_changes o.id o.items) st1.total_units
    rw [return_changes, List.forall₂_map_left_iff] at h2
    refine h2.imp ?_
    intro a b hab
    simp only at hab
    exact ⟨hab.1, hab.2.1, hab.2.2.1, hab.2.2.2.1⟩
  · unfold cancel_order
    rw [if_pos h3]

/-- Witness for C5 at the spec's scenario: balance 100, order of 30. -/
theorem C5_cancel_restores_balances_witness :
    (cancel_order
        (order_create ⟨fun _ => 100, []⟩ 7 ⟨"cust", 0, "", none, none⟩
          [⟨1, 30⟩] 0 (some 5)).2.1
        (created_order 7 ⟨"cust", 0, "", none, none⟩ [⟨1, 30⟩] 0 (some 5))).1 = .success
    ∧ ((cancel_order
        (order_create ⟨fun _ => 100, []⟩ 7 ⟨"cust", 0, "", none, none⟩
          [⟨1, 30⟩] 0 (some 5)).2.1
        (created_order 7 ⟨"cust", 0, "", none, none⟩ [⟨1, 30⟩] 0 (some 5))).2.2).status
      = .CANCELLED
    ∧ (∀ p, ((cancel_order
        (order_create ⟨fun _ => 100, []⟩ 7 ⟨"cust", 0, "", none, none⟩
          [⟨1, 30⟩] 0 (some 5)).2.1
        (created_order 7 ⟨"cust", 0, "", none, none⟩ [⟨1, 30⟩] 0 (some 5))).2.1).total_units p
        = (⟨fun _ => 100, []⟩ : State).total_units p)
    ∧ List.Forall₂ (fun (l : OrderItem) (m : StockMovement) =>
        m.product = l.product ∧ m.quantity_change = l.ordered_units ∧
        m.movement_type = .ORDER_RETURN ∧
        m.related_order = some (created_order 7 ⟨"cust", 0, "", none, none⟩
          [⟨1, 30⟩] 0 (some 5)).id)
        (created_order 7 ⟨"cust", 0, "", none, none⟩ [⟨1, 30⟩] 0 (some 5)).items
        (((cancel_order
          (order_create ⟨fun _ => 100, []⟩ 7 ⟨"cust", 0, "", none, none⟩
            [⟨1, 30⟩] 0 (some 5)).2.1
          (created_order 7 ⟨"cust", 0, "", none, none⟩ [⟨1, 30⟩] 0 (some 5))).2.1).movements.drop
          (order_create ⟨fun _ => 100, []⟩ 7 ⟨"cust", 0, "", none, none⟩
            [⟨1, 30⟩] 0 (some 5)).2.1.movements.length)
    ∧ cancel_order ⟨fun _ => 50, []⟩
        ⟨6, "b", .SHIPPED, none, false, "", none, none, 0, []⟩ =
      (.notPending, ⟨fun _ => 50, []⟩,
        ⟨6, "b", .SHIPPED, none, false, "", none, none, 0, []⟩) :=
  C5_cancel_restores_balances ⟨fun _ => 100, []⟩
    (order_create ⟨fun _ => 100, []⟩ 7 ⟨"cust", 0, "", none, none⟩
      [⟨1, 30⟩] 0 (some 5)).2.1
    ⟨fun _ => 50, []⟩ 7 ⟨"cust", 0, "", none, none⟩ [⟨1, 30⟩] 0 (some 5)
    (created_order 7 ⟨"cust", 0, "", none, none⟩ [⟨1, 30⟩] 0 (some 5))
    ⟨6, "b", .SHIPPED, none, false, "", none, none, 0, []⟩
    (by rfl) (by decide)

theorem amtFor_delta_changes (oid : Nat) (d : Nat → Int) (p : Nat) :
    ∀ ids : List Nat, ids.Nodup →
      amtFor p (delta_changes oid d ids) = if p ∈ ids then -(d p) else 0 := by
  intro ids
  induction ids with
  | nil => intro _; simp [delta_changes, amtFor]
  | cons i ids ih =>
      intro hnd
      have hni : i ∉ ids := (List.nodup_cons.mp hnd).1
      have hrec := ih (List.nodup_cons.mp hnd).2
      by_cases hdi : d i ≠ 0
      · rw [delta_changes, if_pos hdi]
        simp only [amtFor, hrec]
        by_cases hpi : i = p
        · subst hpi
          simp [hni]
        · have hpi' : ¬(p = i) := fun hh => hpi hh.symm
          simp [hpi, hpi', List.mem_cons]
      · rw [delta_changes, if_neg hdi]
        rw [hrec]
        push_neg at hdi
        by_cases hpi : p = i
        · subst hpi
          simp [hni, hdi]
        · simp [List.mem_cons, hpi]

theorem lineQty_eq_zero_of_not_mem (p : Nat) (lines : List OrderItem)
    (h : p ∉ lines.map (·.product)) : lineQty lines p = 0 := by
  unfold lineQty
  have hf : lines.find? (fun l => decide (l.product = p)) = none := by
    rw [List.find?_eq_none]
    intro l hl
    simp only [decide_eq_true_eq]
    intro he
    exact h (List.mem_map.mpr ⟨l, hl, he⟩)
  rw [hf]
  rfl

theorem orderDelta_eq_zero_of_not_mem (p : Nat) (lines old : List OrderItem)
    (h : p ∉ updateIds lines old) : orderDelta lines old p = 0 := by
  unfold updateIds at h
  rw [List.mem_dedup, List.mem_append] at h
  push_neg at h
  unfold orderDelta
  rw [lineQty_eq_zero_of_not_mem p lines h.1, lineQty_eq_zero_of_not_mem p old h.2]
  ring

theorem amtFor_update_changes (oid : Nat) (lines old : List OrderItem) (p : Nat) :
    amtFor p (update_changes oid lines old) = -(orderDelta lines old p) := by
  unfold update_changes
  rw [amtFor_delta_changes oid (orderDelta lines old) p (updateIds lines old)
    (List.nodup_dedup _)]
  by_cases hm : p ∈ updateIds lines old
  · rw [if_pos hm]
  · rw [if_neg hm, orderDelta_eq_zero_of_not_mem p lines old hm]
    simp

theorem mem_delta_changes (oid : Nat) (d : Nat → Int) (c : Change) :
    ∀ ids : List Nat, c ∈ delta_changes oid d ids →
      c.amt = -(d c.pid)
      ∧ c.mt = (if 0 < d c.pid then
          MovementType.ORDER_OUT else MovementType.ORDER_RETURN)
      ∧ d c.pid ≠ 0 ∧ c.ro = some oid := by
  intro ids
  induction ids with
  | nil => intro hc; simp [delta_changes] at hc
  | cons i ids ih =>
      intro hc
      by_cases hdi : d i ≠ 0
      · rw [delta_changes, if_pos hdi] at hc
        rcases List.mem_cons.mp hc with hc1 | hc2
        · subst hc1
          exact ⟨rfl, rfl, hdi, rfl⟩
        · exact ih hc2
      · rw [delta_changes, if_neg hdi] at hc
        exact ih hc

theorem update_changes_pids (oid : Nat) (lines old : List OrderItem) :
    (update_changes oid lines old).map (·.pid) =
      (updateIds lines old).filter (fun p => decide (orderDelta lines old p ≠ 0)) := by
  unfold update_changes
  induction updateIds lines old with
  | nil => simp [delta_changes]
  | cons i ids ih =>
      by_cases hdi : orderDelta lines old i ≠ 0
      · rw [delta_changes, if_pos hdi, List.filter_cons_of_pos (by simpa using hdi),
          List.map_cons, ih]
      · rw [delta_changes, if_neg hdi, List.filter_cons_of_neg (by simpa using hdi), ih]

theorem update_changes_pids_nodup (oid : Nat) (lines old : List OrderItem) :
    ((update_changes oid lines old).map (·.pid)).Nodup := by
  rw [update_changes_pids]
  exact (List.nodup_dedup _).filter _

/-- C3: editing a pending order applies exactly `balance -= delta` with
`delta = desired − committed` for every product (zero net change for
untouched products), persists the submitted line set, and writes one ledger
entry per changed product whose signed change is `-delta` with cause
ORDER_OUT for `delta > 0` and ORDER_RETURN for `delta < 0`; when some
increased line exceeds the available stock the whole edit returns
InsufficientStock with state and order untouched. -/
theorem C3_pending_edit_deltas (st stR : State) (ord ordR : Order)
    (f fR : OrderFormData) (lines linesR : List OrderItem)
    (hdel : ord.is_deleted = false) (hstat : ord.status = .PENDING)
    (hv : f.is_valid) (hfs : formset_is_valid lines)
    (hdup : (lines.map (·.product)).dedup.length = (lines.map (·.product)).length)
    (hok : ∀ p ∈ updateIds lines ord.items,
      0 < orderDelta lines ord.items p → orderDelta lines ord.items p ≤ st.total_units p)
    (hdelR : ordR.is_deleted = false) (hstatR : ordR.status = .PENDING)
    (hvR : fR.is_valid) (hfsR : formset_is_valid linesR)
    (hdupR : (linesR.map (·.product)).dedup.length = (linesR.map (·.product)).length)
    (hlowR : ∃ p ∈ updateIds linesR ordR.items,
      0 < orderDelta linesR ordR.items p ∧
      stR.total_units p < orderDelta linesR ordR.items p) :
    (order_update st ord f lines).1 = .success
    ∧ ((order_update st ord f lines).2.2).items = lines
    ∧ (∀ p, ((order_update st ord f lines).2.1).total_units p
        = st.total_units p - orderDelta lines ord.items p)
    ∧ ((order_update st ord f lines).2.1).movements
        = st.movements ++ movementsOf st.total_units (update_changes ord.id lines ord.items)
    ∧ List.Forall₂ (fun (c : Change) (m : StockMovement) =>
        m.product = c.pid ∧ m.quantity_change = c.amt ∧ m.movement_type = c.mt)
        (update_changes ord.id lines ord.items)
        (movementsOf st.total_units (update_changes ord.id lines ord.items))
    ∧ (∀ c ∈ update_changes ord.id lines ord.items,
        c.amt = -(orderDelta lines ord.items c.pid)
        ∧ c.mt = (if 0 < orderDelta lines ord.items c.pid then
            MovementType.ORDER_OUT else MovementType.ORDER_RETURN)
        ∧ orderDelta lines ord.items c.pid ≠ 0)
    ∧ ((update_changes ord.id lines ord.items).map (·.pid)).Nodup
    ∧ order_update stR ordR fR linesR = (.insufficientStock, stR, ordR) := by
  have hupd : order_update st ord f lines =
      (.success, applyChanges st (update_changes ord.id lines ord.items),
        { ord with
            customer := f.customer
            delivery_date := f.delivery_date
            notes := f.notes
            driver := f.driver
            car := f.car
            items := lines }) := by
    unfold order_update
    rw [if_neg (by simp [hdel]), if_neg (by simp [hstat]),
      if_neg (by simp [hstat]), if_pos hstat,
      if_neg (by simp [hv, hfs]), if_neg (by simp [hdup]),
      if_neg (by
        rw [Bool.not_eq_true, List.any_eq_false]
        intro p hp
        simp only [decide_eq_true_eq, not_and, not_lt]
        intro hpos
        exact hok p hp hpos)]
  refine ⟨by rw [hupd], by rw [hupd], ?_, ?_, ?_, ?_, ?_, ?_⟩
  · intro p
    rw [hupd]
    simp only [applyChanges_total_units]
    rw [amtFor_update_changes]
    ring
  · rw [hupd]
    simp only [applyChanges_movements]
  · have h2 := movementsOf_forall₂ (update_changes ord.id lines ord.items) st.total_units
    refine h2.imp ?_
    intro a b hab
    exact ⟨hab.1, hab.2.1, hab.2.2.1⟩
  · intro c hc
    have h3 := mem_delta_changes ord.id (orderDelta lines ord.items) c
      (updateIds lines ord.items) hc
    exact ⟨h3.1, h3.2.1, h3.2.2.1⟩
  · exact update_changes_pids_nodup ord.id lines ord.items
  · have hanyR : ((updateIds linesR ordR.items).any fun p =>
        decide (0 < orderDelta linesR ordR.items p ∧
          stR.total_units p < orderDelta linesR ordR.items p)) = true := by
      rw [List.any_eq_true]
      obtain ⟨p, hp, h1, h2⟩ := hlowR
      exact ⟨p, hp, by simp [h1, h2]⟩
    unfold order_update
    rw [if_neg (by simp [hdelR]), if_neg (by simp [hstatR]),
      if_neg (by simp [hstatR]), if_pos hstatR,
      if_neg (by simp [hvR, hfsR]), if_neg (by simp [hdupR]), if_pos hanyR]

/-- Witness for C3: a pending order with lines (1,30) and (2,10) edited to
(1,40) and (3,5) — deltas +10, −10 and +5 — and a rollback case asking 200
of a product with balance 100. -/
theorem C3_pending_edit_deltas_witness :
    (order_update ⟨fun _ => 100, []⟩
        ⟨9, "c", .PENDING, none, false, "", none, none, 0, [⟨1, 30⟩, ⟨2, 10⟩]⟩
        ⟨"c", 0, "", none, none⟩ [⟨1, 40⟩, ⟨3, 5⟩]).1 = .success
    ∧ ((order_update ⟨fun _ => 100, []⟩
        ⟨9, "c", .PENDING, none, false, "", none, none, 0, [⟨1, 30⟩, ⟨2, 10⟩]⟩
        ⟨"c", 0, "", none, none⟩ [⟨1, 40⟩, ⟨3, 5⟩]).2.2).items = [⟨1, 40⟩, ⟨3, 5⟩]
    ∧ (∀ p, ((order_update ⟨fun _ => 100, []⟩
        ⟨9, "c", .PENDING, none, false, "", none, none, 0, [⟨1, 30⟩, ⟨2, 10⟩]⟩
        ⟨"c", 0, "", none, none⟩ [⟨1, 40⟩, ⟨3, 5⟩]).2.1).total_units p
        = (⟨fun _ => 100, []⟩ : State).total_units p
          - orderDelta [⟨1, 40⟩, ⟨3, 5⟩] [⟨1, 30⟩, ⟨2, 10⟩] p)
    ∧ ((order_update ⟨fun _ => 100, []⟩
        ⟨9, "c", .PENDING, none, false, "", none, none, 0, [⟨1, 30⟩, ⟨2, 10⟩]⟩
        ⟨"c", 0, "", none, none⟩ [⟨1, 40⟩, ⟨3, 5⟩]).2.1).movements
        = (⟨fun _ => 100, []⟩ : State).movements ++
          movementsOf (⟨fun _ => 100, []⟩ : State).total_units
            (update_changes 9 [⟨1, 40⟩, ⟨3, 5⟩] [⟨1, 30⟩, ⟨2, 10⟩])
    ∧ List.Forall₂ (fun (c : Change) (m : StockMovement) =>
        m.product = c.pid ∧ m.quantity_change = c.amt ∧ m.movement_type = c.mt)
        (update_changes 9 [⟨1, 40⟩, ⟨3, 5⟩] [⟨1, 30⟩, ⟨2, 10⟩])
        (movementsOf (⟨fun _ => 100, []⟩ : State).total_units
          (update_changes 9 [⟨1, 40⟩, ⟨3, 5⟩] [⟨1, 30⟩, ⟨2, 10⟩]))
    ∧ (∀ c ∈ update_changes 9 [⟨1, 40⟩, ⟨3, 5⟩] [⟨1, 30⟩, ⟨2, 10⟩],
        c.amt = -(orderDelta [⟨1, 40⟩, ⟨3, 5⟩] [⟨1, 30⟩, ⟨2, 10⟩] c.pid)
        ∧ c.mt = (if 0 < orderDelta [⟨1, 40⟩, ⟨3, 5⟩] [⟨1, 30⟩, ⟨2, 10⟩] c.pid then
            MovementType.ORDER_OUT else MovementType.ORDER_RETURN)
        ∧ orderDelta [⟨1, 40⟩, ⟨3, 5⟩] [⟨1, 30⟩, ⟨2, 10⟩] c.pid ≠ 0)
    ∧ ((update_changes 9 [⟨1, 40⟩, ⟨3, 5⟩] [⟨1, 30⟩, ⟨2, 10⟩]).map (·.pid)).Nodup
    ∧ order_update ⟨fun _ => 100, []⟩
        ⟨8, "r", .PENDING, none, false, "", none, none, 0, [⟨1, 10⟩]⟩
        ⟨"r", 0, "", none, none⟩ [⟨1, 200⟩] =
      (.insufficientStock, ⟨fun _ => 100, []⟩,
        ⟨8, "r", .PENDING, none, false, "", none, none, 0, [⟨1, 10⟩]⟩) :=
  C3_pending_edit_deltas ⟨fun _ => 100, []⟩ ⟨fun _ => 100, []⟩
    ⟨9, "c", .PENDING, none, false, "", none, none, 0, [⟨1, 30⟩, ⟨2, 10⟩]⟩
    ⟨8, "r", .PENDING, none, false, "", none, none, 0, [⟨1, 10⟩]⟩
    ⟨"c", 0, "", none, none⟩ ⟨"r", 0, "", none, none⟩
    [⟨1, 40⟩, ⟨3, 5⟩] [⟨1, 200⟩]
    rfl rfl (by decide) (by decide) (by decide) (by decide)
    rfl rfl (by decide) (by decide) (by decide) (by decide)

/-- Signed balance change of one stock operation. -/
def opDelta : StockOp → Int
  | .reserve q => -q
  | .ret q => q
  | .receive q => q

theorem runOp_some (pid : Nat) (today : Int) (st st' : State) (op : StockOp)
    (h : runOp pid today st op = some st') :
    st'.total_units pid = st.total_units pid + opDelta op
    ∧ ∃ m : StockMovement, st'.movements = st.movements ++ [m]
        ∧ m.product = pid ∧ m.quantity_change = opDelta op
        ∧ m.new_total_units = st.total_units pid + opDelta op := by
  cases op with
  | reserve q =>
      simp only [runOp] at h
      unfold order_create at h
      by_cases hq : formset_is_valid [⟨pid, q⟩]
      · rw [if_neg (by simp [OrderFormData.is_valid, hq])] at h
        rw [if_neg (by simp)] at h
        rw [if_neg (by simp)] at h
        by_cases hstock : st.total_units pid < q
        · rw [if_pos (by simp [hstock])] at h
          exact Option.noConfusion h
        · rw [if_neg (by simp [hstock])] at h
          have h' := Option.some.inj h
          subst h'
          constructor
          · simp [applyChanges, applyChange, setBalance, create_stock_movement,
              order_out_changes, opDelta]
          · refine ⟨⟨pid, -q, st.total_units pid + -q, .ORDER_OUT, some 0, none⟩,
              ?_, rfl, rfl, rfl⟩
            simp [applyChanges, applyChange, setBalance, create_stock_movement,
              order_out_changes]
      · rw [if_pos (by simp [hq])] at h
        exact Option.noConfusion h
  | ret q =>
      simp only [runOp] at h
      unfold cancel_order at h
      rw [if_neg (by simp)] at h
      have h' := Option.some.inj h
      subst h'
      constructor
      · simp [applyChanges, applyChange, setBalance, create_stock_movement,
          return_changes, opDelta]
      · refine ⟨⟨pid, q, st.total_units pid + q, .ORDER_RETURN, some 0, none⟩,
          ?_, rfl, rfl, rfl⟩
        simp [applyChanges, applyChange, setBalance, create_stock_movement,
          return_changes]
  | receive q =>
      simp only [runOp] at h
      unfold process_supply at h
      rw [if_neg (by simp)] at h
      have h' := Option.some.inj h
      subst h'
      constructor
      · simp [applyChanges, applyChange, setBalance, create_stock_movement,
          supply_in_changes, opDelta]
      · refine ⟨⟨pid, q, st.total_units pid + q, .SUPPLY_IN, none, some 0⟩,
          ?_, rfl, rfl, rfl⟩
        simp [applyChanges, applyChange, setBalance, create_stock_movement,
          supply_in_changes]

theorem opDelta_sums (op : StockOp) (ops : List StockOp) :
    -sumReserved (op :: ops) + sumReturned (op :: ops) =
      opDelta op + (-sumReserved ops + sumReturned ops) := by
  cases op <;> simp [sumReserved, sumReturned, opDelta] <;> ring

theorem runOps_spec (pid : Nat) (today : Int) :
    ∀ (ops : List StockOp) (st st' : State),
      runOps pid today st ops = some st' →
      st'.total_units pid = st.total_units pid - sumReserved ops + sumReturned ops
      ∧ ∃ tail : List StockMovement,
          st'.movements = st.movements ++ tail
          ∧ (tail.map (·.quantity_change)).sum = st'.total_units pid - st.total_units pid
          ∧ (∀ m ∈ tail, m.product = pid)
          ∧ ledgerConsistentFrom (st.total_units pid) tail := by
  intro ops
  induction ops with
  | nil =>
      intro st st' h
      simp only [runOps, Option.some.injEq] at h
      subst h
      refine ⟨by simp [sumReserved, sumReturned], [], by simp, by simp, by simp,
        by simp [ledgerConsistentFrom]⟩
  | cons op ops ih =>
      intro st st' h
      simp only [runOps] at h
      rcases hop : runOp pid today st op with _ | st₁
      · rw [hop] at h; simp at h
      · rw [hop] at h
        simp only [Option.some_bind] at h
        obtain ⟨hb₁, m, hm, hmp, hmq, hmt⟩ := runOp_some pid today st st₁ op hop
        obtain ⟨hb, tail, htl, hsum, hprod, hcons⟩ := ih st₁ st' h
        have hbal : st'.total_units pid =
            st.total_units pid - sumReserved (op :: ops) + sumReturned (op :: ops) := by
          rw [hb, hb₁]
          have := opDelta_sums op ops
          linarith
        refine ⟨hbal, m :: tail, ?_, ?_, ?_, ?_⟩
        · rw [htl, hm, List.append_assoc, List.singleton_append]
        · simp only [List.map_cons, List.sum_cons, hsum, hmq, hb₁]
          ring
        · intro x hx
          rcases List.mem_cons.mp hx with hx1 | hx2
          · rw [hx1]; exact hmp
          · exact hprod x hx2
        · refine ⟨by rw [hmt, hmq], ?_⟩
          rw [hmt, ← hb₁]
          exact hcons

/-- C2: any successful sequence of reserve / return / receive operations on
one product — each executed through the corresponding view handler — ends
with balance = initial − Σ(reserved) + Σ(returned/received); the ledger
rows written during the run all belong to that product, their signed deltas
sum to (final − initial), and each row's `new_total_units` snapshot equals
the product's balance immediately after that row's change. -/
theorem C2_ledger_reconciliation (st : State) (pid : Nat) (today : Int)
    (ops : List StockOp) (h : (runOps pid today st ops).isSome) :
    ((runOps pid today st ops).get h).total_units pid
      = st.total_units pid - sumReserved ops + sumReturned ops
    ∧ ∃ tail : List StockMovement,
        ((runOps pid today st ops).get h).movements = st.movements ++ tail
        ∧ (tail.map (·.quantity_change)).sum
            = ((runOps pid today st ops).get h).total_units pid - st.total_units pid
        ∧ (∀ m ∈ tail, m.product = pid)
        ∧ ledgerConsistentFrom (st.total_units pid) tail :=
  runOps_spec pid today ops st ((runOps pid today st ops).get h)
    (Option.some_get h).symm

/-- Witness for C2 at the spec's scenario chain: balance 100, reserve 30,
return 30, then receive 50. -/
theorem C2_ledger_reconciliation_witness :
    ((runOps 1 0 ⟨fun _ => 100, []⟩ [.reserve 30, .ret 30, .receive 50]).get
        (by rfl)).total_units 1
      = (⟨fun _ => 100, []⟩ : State).total_units 1
        - sumReserved [.reserve 30, .ret 30, .receive 50]
        + sumReturned [.reserve 30, .ret 30, .receive 50]
    ∧ ∃ tail : List StockMovement,
        ((runOps 1 0 ⟨fun _ => 100, []⟩ [.reserve 30, .ret 30, .receive 50]).get
            (by rfl)).movements = (⟨fun _ => 100, []⟩ : State).movements ++ tail
        ∧ (tail.map (·.quantity_change)).sum
            = ((runOps 1 0 ⟨fun _ => 100, []⟩ [.reserve 30, .ret 30, .receive 50]).get
                (by rfl)).total_units 1
              - (⟨fun _ => 100, []⟩ : State).total_units 1
        ∧ (∀ m ∈ tail, m.product = 1)
        ∧ ledgerConsistentFrom ((⟨fun _ => 100, []⟩ : State).total_units 1) tail :=
  C2_ledger_reconciliation ⟨fun _ => 100, []⟩ 1 0 [.reserve 30, .ret 30, .receive 50]
    (by rfl)

end Warehouse
